import Mathlib

/-
Verification of the task-tracker domain model: task records and their two
specialized variants, the dict codec, the JSON file adapter, and the
task manager with add, delete, complete, save and load operations.

Machine dates are modelled as year, month, day naturals. The Python source
renders dates with strftime and the format string %Y-%m-%d, and parses them
with date.fromisoformat; these are modelled as zero-padded YYYY-MM-DD
rendering and strict YYYY-MM-DD parsing with calendar validation, the
semantics of the Python date type for years 1 to 9999.
-/

deriving instance DecidableEq for Except

namespace TaskApp

/-- A calendar date, as in the Python datetime.date type. -/
structure Date where
  year : Nat
  month : Nat
  day : Nat
deriving DecidableEq, Repr

/-- Gregorian leap-year rule, as implemented by Python datetime. -/
def isLeapYear (y : Nat) : Bool :=
  y % 4 == 0 && (y % 100 != 0 || y % 400 == 0)

/-- Number of days in a month, as implemented by Python datetime. -/
def daysInMonth (y m : Nat) : Nat :=
  if m = 2 then (if isLeapYear y then 29 else 28)
  else if m = 4 ∨ m = 6 ∨ m = 9 ∨ m = 11 then 30
  else 31

/-- The validity check the Python date constructor performs. -/
def Date.validB (d : Date) : Bool :=
  decide (1 ≤ d.year ∧ d.year ≤ 9999 ∧ 1 ≤ d.month ∧ d.month ≤ 12 ∧
          1 ≤ d.day ∧ d.day ≤ daysInMonth d.year d.month)

/-- The decimal digit character for n below ten. -/
def digitChar (n : Nat) : Char := Char.ofNat (48 + n)

/-- Inverse of digitChar: the numeric value of a decimal digit character. -/
def charDigit (c : Char) : Option Nat :=
  if 48 ≤ c.toNat ∧ c.toNat ≤ 57 then some (c.toNat - 48) else none

/-- Four-digit zero-padded decimal rendering, as a character list. -/
def fourDigits (n : Nat) : List Char :=
  [digitChar (n / 1000 % 10), digitChar (n / 100 % 10),
   digitChar (n / 10 % 10), digitChar (n % 10)]

/-- Two-digit zero-padded decimal rendering, as a character list. -/
def twoDigits (n : Nat) : List Char :=
  [digitChar (n / 10 % 10), digitChar (n % 10)]

/-- strftime with format %Y-%m-%d, the rendering used by Task.to_dict and
by the Task constructor for created_date. -/
def isoFormat (d : Date) : String :=
  String.mk (fourDigits d.year ++ '-' :: (twoDigits d.month ++ '-' :: twoDigits d.day))

/-- date.fromisoformat: parses a strict YYYY-MM-DD string into a valid
calendar date, or fails. -/
def fromisoformat (s : String) : Option Date :=
  match s.toList with
  | [y1, y2, y3, y4, h1, m1, m2, h2, d1, d2] =>
    if h1 = '-' ∧ h2 = '-' then
      match charDigit y1, charDigit y2, charDigit y3, charDigit y4,
            charDigit m1, charDigit m2, charDigit d1, charDigit d2 with
      | some a, some b, some c, some e, some f, some g, some h, some i =>
        let dt : Date := ⟨1000 * a + 100 * b + 10 * c + e, 10 * f + g, 10 * h + i⟩
        if dt.validB then some dt else none
      | _, _, _, _, _, _, _, _ => none
    else none
  | _ => none

theorem charDigit_digitChar (n : Nat) (h : n < 10) : charDigit (digitChar n) = some n := by
  interval_cases n <;> decide

theorem daysInMonth_le (y m : Nat) : daysInMonth y m ≤ 31 := by
  unfold daysInMonth
  split
  · split <;> omega
  · split <;> omega

theorem fromisoformat_isoFormat (d : Date) (h : d.validB = true) :
    fromisoformat (isoFormat d) = some d := by
  obtain ⟨y, m, dd⟩ := d
  simp only [Date.validB, decide_eq_true_eq] at h
  obtain ⟨hy1, hy2, hm1, hm2, hd1, hd2⟩ := h
  have e1 : charDigit (digitChar (y / 1000 % 10)) = some (y / 1000 % 10) :=
    charDigit_digitChar _ (Nat.mod_lt _ (by omega))
  have e2 : charDigit (digitChar (y / 100 % 10)) = some (y / 100 % 10) :=
    charDigit_digitChar _ (Nat.mod_lt _ (by omega))
  have e3 : charDigit (digitChar (y / 10 % 10)) = some (y / 10 % 10) :=
    charDigit_digitChar _ (Nat.mod_lt _ (by omega))
  have e4 : charDigit (digitChar (y % 10)) = some (y % 10) :=
    charDigit_digitChar _ (Nat.mod_lt _ (by omega))
  have e5 : charDigit (digitChar (m / 10 % 10)) = some (m / 10 % 10) :=
    charDigit_digitChar _ (Nat.mod_lt _ (by omega))
  have e6 : charDigit (digitChar (m % 10)) = some (m % 10) :=
    charDigit_digitChar _ (Nat.mod_lt _ (by omega))
  have e7 : charDigit (digitChar (dd / 10 % 10)) = some (dd / 10 % 10) :=
    charDigit_digitChar _ (Nat.mod_lt _ (by omega))
  have e8 : charDigit (digitChar (dd % 10)) = some (dd % 10) :=
    charDigit_digitChar _ (Nat.mod_lt _ (by omega))
  have q1 : y / 10 / 10 = y / 100 := by rw [Nat.div_div_eq_div_mul]
  have q2 : y / 100 / 10 = y / 1000 := by rw [Nat.div_div_eq_div_mul]
  have q3 : y / 1000 / 10 = y / 10000 := by rw [Nat.div_div_eq_div_mul]
  have hyr : 1000 * (y / 1000 % 10) + 100 * (y / 100 % 10) + 10 * (y / 10 % 10) + y % 10 = y := by
    omega
  have hmr : 10 * (m / 10 % 10) + m % 10 = m := by omega
  have hdd31 : dd ≤ 31 := le_trans hd2 (daysInMonth_le y m)
  have hdr : 10 * (dd / 10 % 10) + dd % 10 = dd := by omega
  simp only [isoFormat, fourDigits, twoDigits, fromisoformat, List.cons_append,
    List.nil_append, String.toList]
  simp only [e1, e2, e3, e4, e5, e6, e7, e8, hyr, hmr, hdr]
  simp [Date.validB, hy1, hy2, hm1, hm2, hd1, hd2]

/-- The variant of a task record: the plain Task class, the WorkTask
subclass carrying a priority, or the PersonalTask subclass carrying a
category. -/
inductive TaskKind where
  | plain : TaskKind
  | work : String → TaskKind
  | personal : String → TaskKind
deriving DecidableEq, Repr

/-- One task record. Mirrors the Python Task class hierarchy: the base
fields of Task.__init__ plus the variant payload. created_date is stored
as a formatted string, exactly as the Python constructor stores
date.today().strftime of %Y-%m-%d. -/
structure TaskRec where
  name : String
  description : String
  status : String
  due_date : Date
  reminder_duration : Option Int
  created_date : String
  kind : TaskKind
deriving DecidableEq, Repr

/-- The Task, WorkTask and PersonalTask constructors: today is the value
of date.today() at construction time. -/
def TaskRec.create (today : Date) (name description status : String) (due_date : Date)
    (kind : TaskKind) (reminder_duration : Option Int) : TaskRec :=
  { name := name, description := description, status := status, due_date := due_date,
    reminder_duration := reminder_duration, created_date := isoFormat today, kind := kind }

/-- A stored document: the string-keyed dict produced by to_dict and
consumed by create_task_from_dict. Every field is optional because a
loaded dict may lack keys; reminder_duration distinguishes an absent key
from a key whose value is null. -/
structure Doc where
  type? : Option String
  name? : Option String
  description? : Option String
  status? : Option String
  due_date? : Option String
  reminder_duration? : Option (Option Int)
  created_date? : Option String
  priority? : Option String
  category? : Option String
deriving DecidableEq, Repr

/-- Task.to_dict, with the WorkTask and PersonalTask overrides that add
their payload field and overwrite the type discriminator. -/
def TaskRec.to_dict (t : TaskRec) : Doc :=
  { type? := some (match t.kind with
      | TaskKind.plain => "Task"
      | TaskKind.work _ => "WorkTask"
      | TaskKind.personal _ => "PersonalTask")
    name? := some t.name
    description? := some t.description
    status? := some t.status
    due_date? := some (isoFormat t.due_date)
    reminder_duration? := some t.reminder_duration
    created_date? := some t.created_date
    priority? := match t.kind with
      | TaskKind.work p => some p
      | _ => none
    category? := match t.kind with
      | TaskKind.personal c => some c
      | _ => none }

/-- Decode errors: KeyError for a missing dict key, ValueError for a bad
date string, as raised by the Python dict lookup and date.fromisoformat. -/
inductive DecodeError where
  | keyError : String → DecodeError
  | valueError : String → DecodeError
deriving DecidableEq, Repr

/-- Python dict subscript: the value when the key is present, KeyError
otherwise. -/
def require {α : Type} (field : String) : Option α → Except DecodeError α
  | some v => Except.ok v
  | none => Except.error (DecodeError.keyError field)

/-- create_task_from_dict: reads the type discriminator with a default of
Task, parses the due date, and dispatches to the constructor of the
matching variant, reading its required fields in the order the Python
call evaluates them. -/
def create_task_from_dict (today : Date) (d : Doc) : Except DecodeError TaskRec := do
  let task_type := d.type?.getD "Task"
  let dueStr ← require "due_date" d.due_date?
  let due ← match fromisoformat dueStr with
    | some dt => Except.ok dt
    | none => Except.error (DecodeError.valueError dueStr)
  if task_type = "WorkTask" then
    let n ← require "name" d.name?
    let desc ← require "description" d.description?
    let st ← require "status" d.status?
    let p ← require "priority" d.priority?
    return TaskRec.create today n desc st due (TaskKind.work p) (d.reminder_duration?.getD none)
  else if task_type = "PersonalTask" then
    let n ← require "name" d.name?
    let desc ← require "description" d.description?
    let st ← require "status" d.status?
    let c ← require "category" d.category?
    return TaskRec.create today n desc st due (TaskKind.personal c) (d.reminder_duration?.getD none)
  else
    let n ← require "name" d.name?
    let desc ← require "description" d.description?
    let st ← require "status" d.status?
    return TaskRec.create today n desc st due TaskKind.plain (d.reminder_duration?.getD none)

/-- The state of the storage file: missing, present with content that
json.load rejects, or present with a parsed list of documents. -/
inductive StoredFile where
  | missing : StoredFile
  | malformed : StoredFile
  | wellFormed : List Doc → StoredFile
deriving DecidableEq, Repr

/-- FileHandler.save_data: overwrites the file with the serialized list. -/
def FileHandler.save_data (docs : List Doc) : StoredFile :=
  StoredFile.wellFormed docs

/-- FileHandler.load_data: the parsed list when the file exists and
parses, and an empty list when the file is missing or json.load raises. -/
def FileHandler.load_data : StoredFile → List Doc
  | StoredFile.missing => []
  | StoredFile.malformed => []
  | StoredFile.wellFormed docs => docs

/-- The TaskManager state: the in-memory task list and the storage file
it reads and writes. -/
structure ManagerState where
  tasks : List TaskRec
  file : StoredFile
deriving DecidableEq, Repr

/-- TaskManager.save_tasks: serializes every task and writes the list. -/
def TaskManager.save_tasks (st : ManagerState) : ManagerState :=
  { st with file := FileHandler.save_data (st.tasks.map TaskRec.to_dict) }

/-- The list comprehension of load_tasks: decodes the documents left to
right, stopping at the first raised decode error. -/
def decodeList (today : Date) : List Doc → Except DecodeError (List TaskRec)
  | [] => Except.ok []
  | d :: ds => do
    let t ← create_task_from_dict today d
    let ts ← decodeList today ds
    return t :: ts

/-- TaskManager.__init__ followed by load_tasks: starts from an empty
list, loads the stored documents, and decodes each of them when the
loaded list is nonempty. A decode error propagates uncaught. -/
def TaskManager.init (today : Date) (file : StoredFile) : Except DecodeError ManagerState :=
  let loaded := FileHandler.load_data file
  if loaded.isEmpty then Except.ok { tasks := [], file := file }
  else
    match decodeList today loaded with
    | Except.ok ts => Except.ok { tasks := ts, file := file }
    | Except.error e => Except.error e

/-- TaskManager.add_task: appends and saves. -/
def TaskManager.add_task (st : ManagerState) (t : TaskRec) : ManagerState :=
  TaskManager.save_tasks { st with tasks := st.tasks ++ [t] }

/-- TaskManager.delete_task: rebuilds the list without the tasks of the
given name, and saves exactly when the list shrank. -/
def TaskManager.delete_task (st : ManagerState) (task_name : String) : Bool × ManagerState :=
  let remaining := st.tasks.filter (fun t => t.name != task_name)
  if remaining.length < st.tasks.length then
    (true, TaskManager.save_tasks { st with tasks := remaining })
  else
    (false, { st with tasks := remaining })

/-- The loop of TaskManager.complete_task: marks the first task of the
given name Complete, or returns none when no name matches. -/
def setFirstComplete (task_name : String) : List TaskRec → Option (List TaskRec)
  | [] => none
  | t :: ts =>
    if t.name = task_name then some ({ t with status := "Complete" } :: ts)
    else Option.map (fun r => t :: r) (setFirstComplete task_name ts)

/-- TaskManager.complete_task: on the first match, sets status, saves and
returns true; with no match, returns false and leaves the state alone. -/
def TaskManager.complete_task (st : ManagerState) (task_name : String) : Bool × ManagerState :=
  match setFirstComplete task_name st.tasks with
  | some ts => (true, TaskManager.save_tasks { st with tasks := ts })
  | none => (false, st)

theorem decode_to_dict (today : Date) (t : TaskRec) (h : t.due_date.validB = true) :
    create_task_from_dict today t.to_dict =
      Except.ok { t with created_date := isoFormat today } := by
  obtain ⟨n, de, stt, dd, rem, cd, k⟩ := t
  simp only [TaskRec.due_date] at h
  cases k <;>
    simp [create_task_from_dict, TaskRec.to_dict, require, fromisoformat_isoFormat dd h,
      TaskRec.create, bind, Except.bind, pure, Except.pure]

theorem setFirstComplete_eq_none (task_name : String) (l : List TaskRec) :
    setFirstComplete task_name l = none ↔ ∀ t ∈ l, t.name ≠ task_name := by
  induction l with
  | nil => simp [setFirstComplete]
  | cons t ts ih =>
    by_cases h : t.name = task_name <;>
      simp [setFirstComplete, h, ih, Option.map_eq_none']

theorem setFirstComplete_eq_some (task_name : String) (l l2 : List TaskRec)
    (h : setFirstComplete task_name l = some l2) :
    ∃ pre t suf, l = pre ++ t :: suf ∧ t.name = task_name ∧
      (∀ u ∈ pre, u.name ≠ task_name) ∧
      l2 = pre ++ { t with status := "Complete" } :: suf := by
  induction l generalizing l2 with
  | nil => simp [setFirstComplete] at h
  | cons t ts ih =>
    by_cases ht : t.name = task_name
    · simp only [setFirstComplete, if_pos ht, Option.some.injEq] at h
      exact ⟨[], t, ts, by simp, ht, by simp, h.symm⟩
    · simp only [setFirstComplete, if_neg ht, Option.map_eq_some'] at h
      obtain ⟨r, hr, hl2⟩ := h
      obtain ⟨pre, u, suf, hsplit, hu, hpre, hr2⟩ := ih r hr
      refine ⟨t :: pre, u, suf, by simp [hsplit], hu, ?_, by simp [← hl2, hr2]⟩
      intro v hv
      rcases List.mem_cons.mp hv with hv | hv
      · simpa [hv] using ht
      · exact hpre v hv

theorem decodeList_to_dict (today : Date) (l : List TaskRec)
    (h : ∀ t ∈ l, t.due_date.validB = true) :
    decodeList today (l.map TaskRec.to_dict) =
      Except.ok (l.map (fun t => { t with created_date := isoFormat today })) := by
  induction l with
  | nil => rfl
  | cons t ts ih =>
    have ht : t.due_date.validB = true := h t (List.mem_cons_self t ts)
    have hts : ∀ u ∈ ts, u.due_date.validB = true := fun u hu => h u (List.mem_cons_of_mem t hu)
    simp [decodeList, decode_to_dict today t ht, ih hts, bind, Except.bind,
      pure, Except.pure]

theorem filter_length_lt_iff (nm : String) (l : List TaskRec) :
    (l.filter (fun t => t.name != nm)).length < l.length ↔ ∃ t ∈ l, t.name = nm := by
  induction l with
  | nil => simp
  | cons t ts ih =>
    by_cases h : t.name = nm
    · simp only [List.filter_cons, h, bne_self_eq_false, if_neg Bool.false_ne_true]
      constructor
      · intro _
        exact ⟨t, List.mem_cons_self t ts, h⟩
      · intro _
        exact Nat.lt_succ_of_le (List.length_filter_le _ ts)
    · have hb : (t.name != nm) = true := bne_iff_ne.mpr h
      simp [List.filter_cons, hb, ih, h]

theorem filter_eq_self_of_no_match (nm : String) (l : List TaskRec)
    (h : ∀ t ∈ l, t.name ≠ nm) : l.filter (fun t => t.name != nm) = l :=
  List.filter_eq_self.mpr (fun t ht => bne_iff_ne.mpr (h t ht))

theorem decode_ok_iff (today : Date) (d : Doc) (t : TaskRec) :
    create_task_from_dict today d = Except.ok t ↔
      ∃ n de stt due, d.name? = some n ∧ d.description? = some de ∧ d.status? = some stt ∧
        (∃ s, d.due_date? = some s ∧ fromisoformat s = some due) ∧
        ((d.type?.getD "Task" = "WorkTask" ∧
            ∃ p, d.priority? = some p ∧
              t = TaskRec.create today n de stt due (TaskKind.work p)
                    (d.reminder_duration?.getD none)) ∨
          (d.type?.getD "Task" ≠ "WorkTask" ∧ d.type?.getD "Task" = "PersonalTask" ∧
            ∃ c, d.category? = some c ∧
              t = TaskRec.create today n de stt due (TaskKind.personal c)
                    (d.reminder_duration?.getD none)) ∨
          (d.type?.getD "Task" ≠ "WorkTask" ∧ d.type?.getD "Task" ≠ "PersonalTask" ∧
            t = TaskRec.create today n de stt due TaskKind.plain
                    (d.reminder_duration?.getD none))) := by
  obtain ⟨ty, nm, de, stt, dd, rem, cd, pr, ca⟩ := d
  cases dd with
  | none => simp [create_task_from_dict, require, bind, Except.bind]
  | some s =>
    cases hfi : fromisoformat s with
    | none =>
      simp [create_task_from_dict, require, bind, Except.bind, hfi]
    | some dt =>
      by_cases hW : (Option.getD ty "Task") = "WorkTask"
      · cases nm <;> cases de <;> cases stt <;> cases pr <;>
          simp [create_task_from_dict, require, bind, Except.bind, pure, Except.pure,
            hfi, hW, eq_comm]
      · by_cases hP : (Option.getD ty "Task") = "PersonalTask"
        · cases nm <;> cases de <;> cases stt <;> cases ca <;>
            simp [create_task_from_dict, require, bind, Except.bind, pure, Except.pure,
              hfi, hW, hP, eq_comm]
        · cases nm <;> cases de <;> cases stt <;>
            simp [create_task_from_dict, require, bind, Except.bind, pure, Except.pure,
              hfi, hW, hP, eq_comm]

/-- C7: decoding a document fails with a DecodeError, rather than
returning a record, exactly when a field the indicated kind requires is
missing from the document, that is name, description, status or due_date
for every kind, priority for a WorkTask document and category for a
PersonalTask document, or when the due-date string is present but is not
a valid ISO-8601 calendar date. -/
theorem decode_error_iff (today : Date) (d : Doc) :
    (∃ e, create_task_from_dict today d = Except.error e) ↔
      (d.name? = none ∨ d.description? = none ∨ d.status? = none ∨ d.due_date? = none ∨
       (d.type?.getD "Task" = "WorkTask" ∧ d.priority? = none) ∨
       (d.type?.getD "Task" = "PersonalTask" ∧ d.category? = none) ∨
       (∃ s, d.due_date? = some s ∧ fromisoformat s = none)) := by
  obtain ⟨ty, nm, de, stt, dd, rem, cd, pr, ca⟩ := d
  cases dd with
  | none => simp [create_task_from_dict, require, bind, Except.bind]
  | some s =>
    cases hfi : fromisoformat s with
    | none =>
      simp [create_task_from_dict, require, bind, Except.bind, hfi]
    | some dt =>
      by_cases hW : (Option.getD ty "Task") = "WorkTask"
      · cases nm <;> cases de <;> cases stt <;> cases pr <;>
          simp_all [create_task_from_dict, require, bind, Except.bind, pure, Except.pure]
      · by_cases hP : (Option.getD ty "Task") = "PersonalTask"
        · cases nm <;> cases de <;> cases stt <;> cases ca <;>
            simp_all [create_task_from_dict, require, bind, Except.bind, pure, Except.pure]
        · cases nm <;> cases de <;> cases stt <;>
            simp_all [create_task_from_dict, require, bind, Except.bind, pure, Except.pure]

/-- A concrete work task constructed on 2024-01-01, used to instantiate
the theorems below on concrete data. -/
def sampleTask : TaskRec :=
  TaskRec.create ⟨2024, 1, 1⟩ "Ship report" "" "Pending" ⟨2025, 3, 1⟩
    (TaskKind.work "High") (some 2)

/-- C1, amended: decoding the encoding of a valid task record of any
variant yields a record equal to the original in every field except
created_date, which is set to the current date at decode time; full
equality therefore holds exactly when the record is decoded on the day it
was constructed. -/
theorem roundtrip_decode_encode (today2 : Date) (t : TaskRec)
    (h : t.due_date.validB = true) :
    create_task_from_dict today2 t.to_dict =
      Except.ok { t with created_date := isoFormat today2 } :=
  decode_to_dict today2 t h

/-- C1 counterexample: a valid work task constructed on 2024-01-01 does
not decode back to itself on 2024-01-02, because create_task_from_dict
never reads the stored created_date and stamps the decode-time date
instead. -/
theorem roundtrip_full_equality_fails :
    create_task_from_dict ⟨2024, 1, 2⟩ sampleTask.to_dict ≠ Except.ok sampleTask := by
  decide

/-- C1 witness: the amended round-trip theorem applied to a concrete work
task. -/
theorem roundtrip_decode_encode_witness :
    sampleTask.due_date.validB = true ∧
    create_task_from_dict ⟨2024, 1, 2⟩ sampleTask.to_dict =
      Except.ok { sampleTask with created_date := isoFormat ⟨2024, 1, 2⟩ } :=
  ⟨by decide, roundtrip_decode_encode ⟨2024, 1, 2⟩ sampleTask (by decide)⟩

/-- C2, amended: saving the collection and constructing a fresh manager
from the same storage at date today2 yields the same records in the same
order with every field preserved except created_date, which is reset to
today2 on every record; the reload is the identity exactly when it
happens on the day each record was constructed. -/
theorem reload_resets_created_date (today2 : Date) (st : ManagerState)
    (h : ∀ t ∈ st.tasks, t.due_date.validB = true) :
    TaskManager.init today2 (TaskManager.save_tasks st).file =
      Except.ok
        { tasks := st.tasks.map (fun t => { t with created_date := isoFormat today2 }),
          file := (TaskManager.save_tasks st).file } := by
  obtain ⟨l, f⟩ := st
  cases l with
  | nil => rfl
  | cons t ts =>
    simp only [TaskManager.save_tasks, FileHandler.save_data, TaskManager.init,
      FileHandler.load_data, List.map_cons, List.isEmpty_cons, Bool.false_eq_true,
      if_false]
    rw [show (TaskRec.to_dict t :: List.map TaskRec.to_dict ts) =
          List.map TaskRec.to_dict (t :: ts) from rfl,
      decodeList_to_dict today2 (t :: ts) h]
    rfl

/-- C2 counterexample: persisting a manager holding one task constructed
on 2024-01-01 and rebuilding the manager on 2024-01-02 yields a task list
that differs from the saved one in created_date. -/
theorem reload_full_equality_fails :
    Except.map ManagerState.tasks
        (TaskManager.init ⟨2024, 1, 2⟩
          (TaskManager.save_tasks { tasks := [sampleTask], file := StoredFile.missing }).file) ≠
      Except.ok [sampleTask] := by
  decide

/-- C2 witness: the amended reload theorem applied to a one-task manager
state. -/
theorem reload_resets_created_date_witness :
    (∀ t ∈ ({ tasks := [sampleTask], file := StoredFile.missing } : ManagerState).tasks,
        t.due_date.validB = true) ∧
    TaskManager.init ⟨2024, 1, 2⟩
        (TaskManager.save_tasks { tasks := [sampleTask], file := StoredFile.missing }).file =
      Except.ok
        { tasks := [{ sampleTask with created_date := isoFormat ⟨2024, 1, 2⟩ }],
          file := (TaskManager.save_tasks
                    { tasks := [sampleTask], file := StoredFile.missing }).file } :=
  ⟨by decide,
    reload_resets_created_date ⟨2024, 1, 2⟩
      { tasks := [sampleTask], file := StoredFile.missing } (by decide)⟩

/-- C3: complete marks exactly the first record whose name matches, in
collection order, as Complete, persists the full collection and returns
true; with no matching name it returns false and leaves the whole state,
the stored file included, unchanged. -/
theorem complete_task_spec (st : ManagerState) (nm : String) :
    ((∃ t ∈ st.tasks, t.name = nm) →
      (TaskManager.complete_task st nm).1 = true ∧
      ∃ pre t suf, st.tasks = pre ++ t :: suf ∧ t.name = nm ∧
        (∀ u ∈ pre, u.name ≠ nm) ∧
        (TaskManager.complete_task st nm).2.tasks =
          pre ++ { t with status := "Complete" } :: suf ∧
        (TaskManager.complete_task st nm).2.file =
          StoredFile.wellFormed
            (((TaskManager.complete_task st nm).2.tasks).map TaskRec.to_dict)) ∧
    ((∀ t ∈ st.tasks, t.name ≠ nm) →
      (TaskManager.complete_task st nm).1 = false ∧
      (TaskManager.complete_task st nm).2 = st) := by
  constructor
  · intro hex
    cases hsc : setFirstComplete nm st.tasks with
    | none =>
      exfalso
      obtain ⟨t, ht, hn⟩ := hex
      exact (setFirstComplete_eq_none nm st.tasks).mp hsc t ht hn
    | some ts =>
      obtain ⟨pre, t, suf, hsplit, hn, hpre, hts⟩ :=
        setFirstComplete_eq_some nm st.tasks ts hsc
      refine ⟨?_, pre, t, suf, hsplit, hn, hpre, ?_, ?_⟩ <;>
        simp [TaskManager.complete_task, hsc, TaskManager.save_tasks,
          FileHandler.save_data, hts]
  · intro hall
    have hsc : setFirstComplete nm st.tasks = none :=
      (setFirstComplete_eq_none nm st.tasks).mpr hall
    simp [TaskManager.complete_task, hsc]

/-- C3 witness: completing the one task of a one-task manager by its name
returns true, updates its status and persists the collection. -/
theorem complete_task_spec_witness :
    (∃ t ∈ ({ tasks := [sampleTask], file := StoredFile.missing } : ManagerState).tasks,
        t.name = "Ship report") ∧
    ((TaskManager.complete_task
        { tasks := [sampleTask], file := StoredFile.missing } "Ship report").1 = true ∧
      ∃ pre t suf,
        ({ tasks := [sampleTask], file := StoredFile.missing } : ManagerState).tasks =
          pre ++ t :: suf ∧
        t.name = "Ship report" ∧ (∀ u ∈ pre, u.name ≠ "Ship report") ∧
        (TaskManager.complete_task
            { tasks := [sampleTask], file := StoredFile.missing } "Ship report").2.tasks =
          pre ++ { t with status := "Complete" } :: suf ∧
        (TaskManager.complete_task
            { tasks := [sampleTask], file := StoredFile.missing } "Ship report").2.file =
          StoredFile.wellFormed
            (((TaskManager.complete_task
                { tasks := [sampleTask], file := StoredFile.missing }
                "Ship report").2.tasks).map TaskRec.to_dict)) :=
  ⟨by decide,
    (complete_task_spec { tasks := [sampleTask], file := StoredFile.missing }
      "Ship report").1 (by decide)⟩

/-- C4: delete removes exactly the records whose name equals the given
name, keeping the remaining records in their relative order; it returns
true and persists the filtered collection when at least one record
matched, and returns false leaving the state, the stored file included,
unchanged when none matched. -/
theorem delete_task_spec (st : ManagerState) (nm : String) :
    (TaskManager.delete_task st nm).2.tasks =
      st.tasks.filter (fun t => t.name != nm) ∧
    ((∃ t ∈ st.tasks, t.name = nm) →
      (TaskManager.delete_task st nm).1 = true ∧
      (TaskManager.delete_task st nm).2.file =
        StoredFile.wellFormed
          ((st.tasks.filter (fun t => t.name != nm)).map TaskRec.to_dict)) ∧
    ((∀ t ∈ st.tasks, t.name ≠ nm) →
      (TaskManager.delete_task st nm).1 = false ∧
      (TaskManager.delete_task st nm).2 = st) := by
  refine ⟨?_, ?_, ?_⟩
  · simp only [TaskManager.delete_task, TaskManager.save_tasks, FileHandler.save_data]
    split <;> rfl
  · intro hex
    have hlt := (filter_length_lt_iff nm st.tasks).mpr hex
    simp [TaskManager.delete_task, hlt, TaskManager.save_tasks, FileHandler.save_data]
  · intro hall
    have heq := filter_eq_self_of_no_match nm st.tasks hall
    have : ¬ (st.tasks.filter (fun t => t.name != nm)).length < st.tasks.length := by
      rw [heq]
      exact Nat.lt_irrefl _
    simp [TaskManager.delete_task, this, heq]

/-- C4 witness: deleting the one task of a one-task manager by its name
returns true and persists the emptied collection. -/
theorem delete_task_spec_witness :
    (TaskManager.delete_task
        { tasks := [sampleTask], file := StoredFile.missing } "Ship report").2.tasks =
      (({ tasks := [sampleTask], file := StoredFile.missing } : ManagerState).tasks.filter
        (fun t => t.name != "Ship report")) ∧
    (∃ t ∈ ({ tasks := [sampleTask], file := StoredFile.missing } : ManagerState).tasks,
        t.name = "Ship report") ∧
    ((TaskManager.delete_task
        { tasks := [sampleTask], file := StoredFile.missing } "Ship report").1 = true ∧
      (TaskManager.delete_task
          { tasks := [sampleTask], file := StoredFile.missing } "Ship report").2.file =
        StoredFile.wellFormed
          ((({ tasks := [sampleTask], file := StoredFile.missing } :
              ManagerState).tasks.filter (fun t => t.name != "Ship report")).map
            TaskRec.to_dict)) :=
  ⟨(delete_task_spec { tasks := [sampleTask], file := StoredFile.missing }
      "Ship report").1,
   by decide,
   (delete_task_spec { tasks := [sampleTask], file := StoredFile.missing }
      "Ship report").2.1 (by decide)⟩

/-- C5: load_data returns the stored document list when the file exists
and parses, and an empty list, raising nothing, when the file is missing
or its contents fail to parse; consequently a manager constructed over a
missing file starts with an empty task list and no error. -/
theorem load_data_spec (today : Date) :
    FileHandler.load_data StoredFile.missing = [] ∧
    FileHandler.load_data StoredFile.malformed = [] ∧
    (∀ docs, FileHandler.load_data (StoredFile.wellFormed docs) = docs) ∧
    TaskManager.init today StoredFile.missing =
      Except.ok { tasks := [], file := StoredFile.missing } :=
  ⟨rfl, rfl, fun _ => rfl, rfl⟩

/-- C6: decoding dispatches on the type discriminator of the document: a
WorkTask document decodes to the work variant carrying its priority, a
PersonalTask document to the personal variant carrying its category, and
a document whose discriminator is absent or unrecognized decodes to a
plain task. -/
theorem decode_dispatch_spec (today : Date) (d : Doc) (t : TaskRec)
    (h : create_task_from_dict today d = Except.ok t) :
    (d.type? = some "WorkTask" →
      ∃ p, d.priority? = some p ∧ t.kind = TaskKind.work p) ∧
    (d.type? = some "PersonalTask" →
      ∃ c, d.category? = some c ∧ t.kind = TaskKind.personal c) ∧
    (∀ s, d.type? = some s → s ≠ "WorkTask" → s ≠ "PersonalTask" →
      t.kind = TaskKind.plain) ∧
    (d.type? = none → t.kind = TaskKind.plain) := by
  rw [decode_ok_iff] at h
  obtain ⟨n, de, stt, due, hn, hde, hstt, hdue, hkind⟩ := h
  refine ⟨?_, ?_, ?_, ?_⟩
  · intro hty
    rcases hkind with ⟨hW, p, hp, ht⟩ | ⟨hnW, hP, c, hc, ht⟩ | ⟨hnW, hnP, ht⟩
    · exact ⟨p, hp, by simp [ht, TaskRec.create]⟩
    · rw [hty] at hnW
      simp at hnW
    · rw [hty] at hnW
      simp at hnW
  · intro hty
    rcases hkind with ⟨hW, p, hp, ht⟩ | ⟨hnW, hP, c, hc, ht⟩ | ⟨hnW, hnP, ht⟩
    · rw [hty] at hW
      simp at hW
    · exact ⟨c, hc, by simp [ht, TaskRec.create]⟩
    · rw [hty] at hnP
      simp at hnP
  · intro s hty hsW hsP
    rcases hkind with ⟨hW, p, hp, ht⟩ | ⟨hnW, hP, c, hc, ht⟩ | ⟨hnW, hnP, ht⟩
    · rw [hty] at hW
      simp at hW
      exact absurd hW hsW
    · rw [hty] at hP
      simp at hP
      exact absurd hP hsP
    · simp [ht, TaskRec.create]
  · intro hty
    rcases hkind with ⟨hW, p, hp, ht⟩ | ⟨hnW, hP, c, hc, ht⟩ | ⟨hnW, hnP, ht⟩
    · rw [hty] at hW
      simp at hW
    · rw [hty] at hP
      simp at hP
    · simp [ht, TaskRec.create]

/-- C6 witness: the dispatch theorem applied to the encoding of a
concrete work task. -/
theorem decode_dispatch_spec_witness :
    (sampleTask.to_dict.type? = some "WorkTask" →
      ∃ p, sampleTask.to_dict.priority? = some p ∧
        ({ sampleTask with created_date := isoFormat ⟨2024, 1, 2⟩ } : TaskRec).kind =
          TaskKind.work p) ∧
    (sampleTask.to_dict.type? = some "PersonalTask" →
      ∃ c, sampleTask.to_dict.category? = some c ∧
        ({ sampleTask with created_date := isoFormat ⟨2024, 1, 2⟩ } : TaskRec).kind =
          TaskKind.personal c) ∧
    (∀ s, sampleTask.to_dict.type? = some s → s ≠ "WorkTask" → s ≠ "PersonalTask" →
      ({ sampleTask with created_date := isoFormat ⟨2024, 1, 2⟩ } : TaskRec).kind =
        TaskKind.plain) ∧
    (sampleTask.to_dict.type? = none →
      ({ sampleTask with created_date := isoFormat ⟨2024, 1, 2⟩ } : TaskRec).kind =
        TaskKind.plain) :=
  decode_dispatch_spec ⟨2024, 1, 2⟩ sampleTask.to_dict
    { sampleTask with created_date := isoFormat ⟨2024, 1, 2⟩ } (by decide)

/-- C7 witness: a WorkTask document lacking its priority field decodes to
an error. -/
theorem decode_error_iff_witness :
    ∃ e, create_task_from_dict ⟨2024, 1, 2⟩
        { type? := some "WorkTask", name? := some "a", description? := some "",
          status? := some "Pending", due_date? := some "2025-03-01",
          reminder_duration? := none, created_date? := none,
          priority? := none, category? := none } = Except.error e :=
  (decode_error_iff ⟨2024, 1, 2⟩
      { type? := some "WorkTask", name? := some "a", description? := some "",
        status? := some "Pending", due_date? := some "2025-03-01",
        reminder_duration? := none, created_date? := none,
        priority? := none, category? := none }).mpr
    (Or.inr (Or.inr (Or.inr (Or.inr (Or.inl ⟨by decide, rfl⟩)))))

/-- C8: add appends the given record, a record with a duplicate name
included, to the end of the in-memory collection and overwrites storage
with the re-encoded full collection, so the persisted document order
equals insertion order. -/
theorem add_task_spec (st : ManagerState) (t : TaskRec) :
    (TaskManager.add_task st t).tasks = st.tasks ++ [t] ∧
    (TaskManager.add_task st t).file =
      StoredFile.wellFormed ((st.tasks ++ [t]).map TaskRec.to_dict) :=
  ⟨rfl, rfl⟩

/-- C9: complete changes at most the status field of at most one record,
leaving every other field of every record intact; the records delete
keeps are records of the original list in their original order; add
leaves every existing record untouched; hence no manager operation
changes the created_date of a record after its construction. -/
theorem frame_spec (st : ManagerState) (nm : String) (u : TaskRec) :
    ((TaskManager.complete_task st nm).2.tasks = st.tasks ∨
      ∃ pre t suf, st.tasks = pre ++ t :: suf ∧
        (TaskManager.complete_task st nm).2.tasks =
          pre ++ { t with status := "Complete" } :: suf) ∧
    List.Sublist (TaskManager.delete_task st nm).2.tasks st.tasks ∧
    (TaskManager.add_task st u).tasks = st.tasks ++ [u] := by
  refine ⟨?_, ?_, rfl⟩
  · cases hsc : setFirstComplete nm st.tasks with
    | none =>
      left
      simp [TaskManager.complete_task, hsc]
    | some ts =>
      right
      obtain ⟨pre, t, suf, hsplit, hn, hpre, hts⟩ :=
        setFirstComplete_eq_some nm st.tasks ts hsc
      exact ⟨pre, t, suf, hsplit,
        by simp [TaskManager.complete_task, hsc, TaskManager.save_tasks, hts]⟩
  · have hdel : (TaskManager.delete_task st nm).2.tasks =
        st.tasks.filter (fun t => t.name != nm) := by
      simp only [TaskManager.delete_task, TaskManager.save_tasks, FileHandler.save_data]
      split <;> rfl
    rw [hdel]
    exact List.filter_sublist _

/-- C10: the record produced by decoding any document carries the decode
date as its created_date, and decoding ignores the created_date field of
the document entirely: changing or removing it never changes the result. -/
theorem decode_created_date_spec (today : Date) (d : Doc) :
    (∀ t, create_task_from_dict today d = Except.ok t →
      t.created_date = isoFormat today) ∧
    (∀ x, create_task_from_dict today { d with created_date? := x } =
      create_task_from_dict today d) := by
  constructor
  · intro t h
    rw [decode_ok_iff] at h
    obtain ⟨n, de, stt, due, hn, hde, hstt, hdue, hkind⟩ := h
    rcases hkind with ⟨hW, p, hp, ht⟩ | ⟨hnW, hP, c, hc, ht⟩ | ⟨hnW, hnP, ht⟩ <;>
      simp [ht, TaskRec.create]
  · intro x
    obtain ⟨ty, nm, de, stt, dd, rem, cd, pr, ca⟩ := d
    rfl

/-- C10 witness: decoding the encoding of a concrete task on 2024-01-02
stamps 2024-01-02 as the created_date. -/
theorem decode_created_date_spec_witness :
    ({ sampleTask with created_date := isoFormat ⟨2024, 1, 2⟩ } : TaskRec).created_date =
      isoFormat ⟨2024, 1, 2⟩ :=
  (decode_created_date_spec ⟨2024, 1, 2⟩ sampleTask.to_dict).1
    { sampleTask with created_date := isoFormat ⟨2024, 1, 2⟩ } (by decide)

end TaskApp
